import Mathlib

/-!
Verification of the fetch-and-count service: a shallow embedding of the
repository's tag counter (`libs/helpers.py` and `services/tag_analyzer.py`),
its retrying fetchers (`libs/helpers.fetch`,
`repositories/web_repository.AioHttpRepository.get_content`), the batch and
single-target endpoint handlers (`routers/main.py`), and the session
lifecycle (`libs/helpers.get_session` / `cleanup`).

Strings from the Python side are embedded as `List Char`.
-/

namespace Spec2Proof

/-! ### Python `re` semantics, specialized to the anchor pattern

`libs/helpers.py` line 19 precompiles
the anchor pattern — `<a`, whitespace, any non-`>` run, `href`, optional
whitespace around `=`, a quote, `http` or `https` followed by `://`, a
non-quote run, a quote, a non-`>` run, `>`, then the captured lazy body up
to `</a>` — with `re.IGNORECASE | re.DOTALL`, and `search_tag` runs `findall` with it.
We embed a backtracking matcher with Python priority semantics: alternation
tries the left branch first, greedy stars try the longest iteration count
first, and `findall` scans left to right, resuming after each match.
The single capture group `(.*?)` (lazy, DOTALL so `.` matches newlines) is
embedded by `capClose`, which tries the shortest capture first. -/

/-- Regular-expression ASTs used by the embedded matcher: empty string,
single character from a class, concatenation, alternation (left branch
preferred, as in Python), and greedy star. -/
inductive RE where
  | eps : RE
  | cls : (Char → Bool) → RE
  | cat : RE → RE → RE
  | alt : RE → RE → RE
  | star : RE → RE

/-- ASCII whitespace recognized by Python's `\s` (and by `str.split()`). -/
def isPySpace (c : Char) : Bool :=
  c == ' ' || c == '\t' || c == '\n' || c == '\r' || c == '\x0b' || c == '\x0c'

/-- Backtracking matcher in continuation-passing style, with Python's
priority order: `alt` tries the left branch first and `star` is greedy
(one more iteration is preferred over stopping).  `fuel` bounds the nesting
depth; every use below passes fuel that exceeds the deepest possible chain
for its pattern, so the fuel never runs out on the inputs considered. -/
def reMatch : Nat → RE → List Char → (List Char → Option (List Char × List Char)) →
    Option (List Char × List Char)
  | 0, _, _, _ => none
  | _ + 1, RE.eps, s, k => k s
  | _ + 1, RE.cls _, [], _ => none
  | _ + 1, RE.cls p, c :: s, k => if p c then k s else none
  | fuel + 1, RE.cat r1 r2, s, k =>
      reMatch fuel r1 s (fun s1 => reMatch fuel r2 s1 k)
  | fuel + 1, RE.alt r1 r2, s, k =>
      match reMatch fuel r1 s k with
      | some v => some v
      | none => reMatch fuel r2 s k
  | fuel + 1, RE.star r, s, k =>
      match reMatch fuel r s (fun s1 =>
          if s1.length < s.length then reMatch fuel (RE.star r) s1 k else none) with
      | some v => some v
      | none => k s

/-- A literal character (characters that have no case variant). -/
def lchar (c : Char) : RE := RE.cls (fun x => x == c)

/-- A letter under `re.IGNORECASE`: matches both its lower- and upper-case form. -/
def ichar (c : Char) : RE := RE.cls (fun x => x == c || x == c.toUpper)

/-- A case-insensitive literal word, one `ichar` per letter. -/
def istr : List Char → RE
  | [] => RE.eps
  | c :: cs => RE.cat (ichar c) (istr cs)

/-- The quote character class (double or single quote). -/
def quoteCls : RE := RE.cls (fun x => x == '"' || x == '\'')

/-- The character class `[^>]`. -/
def notGt : RE := RE.cls (fun x => x != '>')

/-- The negated quote class (anything but a quote character). -/
def notQuote : RE := RE.cls (fun x => x != '"' && x != '\'')

/-- The part of the precompiled pattern before the capture group:
`<a\s+[^>]*href\s*=\s*` quote `(?:http|https)://` `[^quotes]*` quote `[^>]*>`,
with `re.IGNORECASE` applied to the letters. -/
def anchorHead : RE :=
  RE.cat (lchar '<') (RE.cat (ichar 'a')
  (RE.cat (RE.cat (RE.cls isPySpace) (RE.star (RE.cls isPySpace)))
  (RE.cat (RE.star notGt)
  (RE.cat (istr ['h', 'r', 'e', 'f'])
  (RE.cat (RE.star (RE.cls isPySpace))
  (RE.cat (lchar '=')
  (RE.cat (RE.star (RE.cls isPySpace))
  (RE.cat quoteCls
  (RE.cat (RE.alt (istr ['h', 't', 't', 'p']) (istr ['h', 't', 't', 'p', 's']))
  (RE.cat (lchar ':')
  (RE.cat (lchar '/')
  (RE.cat (lchar '/')
  (RE.cat (RE.star notQuote)
  (RE.cat quoteCls
  (RE.cat (RE.star notGt)
  (lchar '>'))))))))))))))))

/-- The closing literal `</a>` of the pattern (`a` case-insensitive). -/
def closeRE : RE :=
  RE.cat (lchar '<') (RE.cat (lchar '/') (RE.cat (ichar 'a') (lchar '>')))

/-- The tail `(.*?)</a>` of the pattern: the lazy DOTALL capture group
followed by the closing literal.  Python's lazy star prefers the shortest
capture, so the first position where `</a>` matches wins; on total failure
`none` lets `reMatch` backtrack into the head of the pattern. -/
def capClose (s : List Char) : Option (List Char × List Char) :=
  match reMatch 16 closeRE s (fun rest => some ([], rest)) with
  | some pr => some pr
  | none =>
    match s with
    | [] => none
    | c :: s1 => (capClose s1).map (fun pr => (c :: pr.1, pr.2))

/-- Fuel that dominates the nesting depth of any match of the anchor
pattern over `s`: the head pattern has constant depth plus a bounded number
of levels per character consumed by a star. -/
def reFuel (s : List Char) : Nat := 8 * s.length + 200

/-- Try the whole precompiled pattern at the start of `s`; on success return
the captured group and the remainder of `s` after the match. -/
def matchAnchorAt (s : List Char) : Option (List Char × List Char) :=
  reMatch (reFuel s) anchorHead s capClose

/-- `findall` scanning: try the pattern at each position from the left;
after a match, resume right after it (after a zero-width match, advance by
one character, as Python does).  `fuel` is spent once per position. -/
def findallAux : Nat → List Char → List (List Char)
  | 0, _ => []
  | fuel + 1, s =>
    match matchAnchorAt s with
    | some (cap, rest) =>
      if rest.length < s.length then cap :: findallAux fuel rest
      else
        cap :: (match s with
                | [] => []
                | _ :: s1 => findallAux fuel s1)
    | none =>
      match s with
      | [] => []
      | _ :: s1 => findallAux fuel s1

/-- `pattern_compiled.findall data` (helpers.py line 19 / tag_analyzer.py
lines 32-35: both modules compile the identical pattern). -/
def pattern_findall (s : List Char) : List (List Char) :=
  findallAux (s.length + 1) s

/-- Word counting used via `len(tag.split())`: the number of maximal runs
of non-whitespace characters. -/
def countWordsAux : List Char → Bool → Nat
  | [], _ => 0
  | c :: s, inWord =>
    if isPySpace c then countWordsAux s false
    else (if inWord then 0 else 1) + countWordsAux s true

/-- `len(tag.split())` for a captured tag body. -/
def countWords (s : List Char) : Nat := countWordsAux s false

/-- `search_tag(data)` on the default-pattern path (helpers.py lines
117-143): empty input returns 0, otherwise
`sum(len(tag.split()) for tag in a_tags if tag)` over
`a_tags = pattern_compiled.findall(data)`. -/
def search_tag (data : List Char) : Nat :=
  if data.isEmpty then 0
  else (((pattern_findall data).filter (fun tag => !tag.isEmpty)).map countWords).sum

/-- `HrefTagAnalyzer._count_href_tags(html_content)` (tag_analyzer.py lines
37-43): same guard, same findall over the identically compiled pattern,
same word sum. -/
def count_href_tags (html_content : List Char) : Nat :=
  if html_content.isEmpty then 0
  else (((pattern_findall html_content).filter (fun tag => !tag.isEmpty)).map countWords).sum

/-! ### Retrying fetchers

`libs/helpers.fetch` (lines 78-115) and
`repositories/web_repository.AioHttpRepository.get_content` (lines 67-84)
both wrap an underlying HTTP attempt in a retry loop.  The underlying
attempt is embedded as a function from the attempt index to an `Outcome`:
`transient` stands for the exceptions caught by the
`except (ClientError, asyncio.TimeoutError)` clause, `fatal` for any other
exception.  `random.random()` is embedded as an input stream
`j : Nat → ℚ` of draws (one per attempt index); the code multiplies each
draw by `0.1`.  Sleeps are recorded as the list of durations passed to
`asyncio.sleep`, in order. -/

/-- Result of one underlying `session.get(url)` attempt. -/
inductive Outcome where
  | ok (body : List Char)
  | transient (msg : List Char)
  | fatal (msg : List Char)
  deriving DecidableEq

/-- What `helpers.fetch` ends with: the body, or a raised `ClientError`
wrapping the message of the last cause. -/
inductive FetchResult where
  | ok (body : List Char)
  | clientError (cause : List Char)
  deriving DecidableEq

/-- A whole run of `helpers.fetch`: final result, number of underlying
attempts performed, and the sleeps executed between attempts. -/
structure FetchTrace where
  result : FetchResult
  attempts : Nat
  sleeps : List ℚ
  deriving DecidableEq

/-- The `while retries <= max_retries` loop of `helpers.fetch` (lines
93-115).  `fuel` counts the remaining loop iterations
(`max_retries + 1 - retries`); the fuel-0 branch is the dead
`raise ClientError(...)` after the loop.  On a transient failure the code
increments `retries`, raises a wrapping `ClientError` if
`retries > max_retries`, and otherwise sleeps `backoff + jitter` and
doubles `backoff`. -/
def fetchAux (f : Nat → Outcome) (j : Nat → ℚ) (max_retries : Nat) :
    Nat → Nat → Nat → ℚ → FetchTrace
  | 0, _, a, _ => { result := .clientError [], attempts := a, sleeps := [] }
  | fuel + 1, retries, a, backoff =>
    match f a with
    | .ok body => { result := .ok body, attempts := a + 1, sleeps := [] }
    | .fatal m => { result := .clientError m, attempts := a + 1, sleeps := [] }
    | .transient m =>
      if retries + 1 > max_retries then
        { result := .clientError m, attempts := a + 1, sleeps := [] }
      else
        let t := fetchAux f j max_retries fuel (retries + 1) (a + 1) (backoff * 2)
        { result := t.result, attempts := t.attempts,
          sleeps := (backoff + j a * (1 / 10)) :: t.sleeps }

/-- `helpers.fetch(session, url, max_retries)`: the loop starts with
`retries = 0` and `backoff = 1`. -/
def fetch (f : Nat → Outcome) (j : Nat → ℚ) (max_retries : Nat) : FetchTrace :=
  fetchAux f j max_retries (max_retries + 1) 0 0 1

/-- What `AioHttpRepository.get_content` ends with: a body (possibly the
empty string it substitutes after exhausting retries), or an exception
that propagates uncaught. -/
inductive ContentResult where
  | ok (body : List Char)
  | raised (msg : List Char)
  deriving DecidableEq

/-- A whole run of `get_content`: final result, attempts, sleeps. -/
structure ContentTrace where
  result : ContentResult
  attempts : Nat
  sleeps : List ℚ
  deriving DecidableEq

/-- The `for attempt in range(max_retries + 1)` loop of
`AioHttpRepository.get_content` (lines 71-84).  `fuel` counts remaining
iterations; the fuel-0 branch is the `return ""` after the loop.  On a
transient failure at the last attempt the code logs and returns the empty
string; otherwise it sleeps `2 ** attempt + random.random() * 0.1`.  A
non-transient exception has no handler and propagates. -/
def get_contentAux (f : Nat → Outcome) (j : Nat → ℚ) (max_retries : Nat) :
    Nat → Nat → ContentTrace
  | 0, a => { result := .ok [], attempts := a, sleeps := [] }
  | fuel + 1, a =>
    match f a with
    | .ok body => { result := .ok body, attempts := a + 1, sleeps := [] }
    | .fatal m => { result := .raised m, attempts := a + 1, sleeps := [] }
    | .transient _ =>
      if a == max_retries then { result := .ok [], attempts := a + 1, sleeps := [] }
      else
        let t := get_contentAux f j max_retries fuel (a + 1)
        { result := t.result, attempts := t.attempts,
          sleeps := ((2 : ℚ) ^ a + j a * (1 / 10)) :: t.sleeps }

/-- `AioHttpRepository.get_content(url, max_retries)`. -/
def get_content (f : Nat → Outcome) (j : Nat → ℚ) (max_retries : Nat) : ContentTrace :=
  get_contentAux f j max_retries (max_retries + 1) 0

/-! ### Session lifecycle (`libs/helpers.get_session` / `cleanup`,
lines 30-76 and 162-169; `AioHttpRepository._get_session` / `cleanup`
behaves identically for the lifecycle aspects modelled here) -/

/-- An aiohttp client session: an identity and its `closed` flag. -/
structure Session where
  sid : Nat
  closed : Bool
  deriving DecidableEq

/-- The module state: the `_session` global. -/
structure HelperState where
  session : Option Session
  deriving DecidableEq

/-- `helpers.cleanup()`: `if _session and not _session.closed: await
_session.close(); _session = None`.  Returns the new state and whether
`close` was called. -/
def cleanup (st : HelperState) : HelperState × Bool :=
  match st.session with
  | some s => if !s.closed then ({ session := none }, true) else (st, false)
  | none => (st, false)

/-- `helpers.get_session()`: under the lock, construct a fresh session if
none exists or the existing one is closed, else reuse it.  `fresh` is the
identity the constructor would assign to a newly built session. -/
def get_session (st : HelperState) (fresh : Nat) : Session × HelperState :=
  match st.session with
  | some s =>
    if s.closed then
      ({ sid := fresh, closed := false }, { session := some { sid := fresh, closed := false } })
    else (s, st)
  | none =>
    ({ sid := fresh, closed := false }, { session := some { sid := fresh, closed := false } })

/-! ### Configuration and the fetch-and-count pipeline -/

/-- `conf/settings.Settings` (settings.py lines 7-29). -/
structure Settings where
  urls : List (List Char)
  pattern : List Char
  api_stage : List Char
  cache_expire : Nat
  cache_backend : List Char
  cache_db_path : List Char
  timeout : Nat
  deriving DecidableEq

/-- The custom-pattern branch of `search_tag(data, pattern)` (helpers.py
lines 132-135, 143): the caller-supplied pattern is compiled by the `re`
library; its `findall` is embedded as the function `compiled_findall`. -/
def search_tag_custom (compiled_findall : List Char → List (List Char))
    (data : List Char) : Nat :=
  if data.isEmpty then 0
  else (((compiled_findall data).filter (fun tag => !tag.isEmpty)).map countWords).sum

/-- The counting step of `helpers.results(url)` (lines 145-160): the
fetched body is passed to `search_tag(html)` with no pattern argument, so
the module-level precompiled default pattern is used.  The configuration
is threaded through to express what `results` does (and does not do) with
it; the source of `results` never consults `settings.pattern`. -/
def results (_cfg : Settings) (html : List Char) : Nat :=
  search_tag html

/-! ### Endpoint handlers (`routers/main.py`) and the service layer
(`services/tag_analyzer.py`)

The per-target network computation `results(url)` is embedded as an
`Except`-valued input: `.ok n` when the pipeline produced the count `n`,
`.error e` when it raised an exception rendered as `e`. -/

/-- One element of the JSON `data` list built by the handlers. -/
structure ResultItem where
  id : Nat
  url : List Char
  result : Option Nat
  error : Option (List Char)
  deriving DecidableEq

/-- `get_tags.process_url(url_id, url)` (main.py lines 75-91): on success
the `result` field is `result if result else None` (so a zero count is
rendered as `None`); any exception is caught and rendered as a record with
`result: None` and an `error` field. -/
def process_url (url_id : Nat) (url : List Char)
    (outcome : Except (List Char) Nat) : ResultItem :=
  match outcome with
  | .ok r => { id := url_id, url := url, result := if r != 0 then some r else none,
               error := none }
  | .error e => { id := url_id, url := url, result := none, error := some e }

/-- The `data` list of `get_tags()` (main.py lines 93-97):
`asyncio.gather` over `process_url(url_id, url)` for
`enumerate(settings.urls)`, results in input order.  `outcome i` is what
`results(urls[i])` does for target `i`. -/
def get_tags (urls : List (List Char)) (outcome : Nat → Except (List Char) Nat) :
    List ResultItem :=
  (List.range urls.length).map (fun i => process_url i (urls.getD i []) (outcome i))

/-- `asyncio.gather`'s assembly of concurrently completing tasks, made
explicit: tasks finish in some completion order `order`; each completion
stores task `i`'s value into slot `i` of a result array of length `n`. -/
def gatherAssemble (n : Nat) (order : List Nat) (task : Nat → α) : List (Option α) :=
  order.foldl (fun acc i => acc.set i (some (task i))) (List.replicate n none)

/-- `models/schemas.TagResult`. -/
structure TagResult where
  url_id : Nat
  url : List Char
  count : Nat
  deriving DecidableEq

/-- `HrefTagAnalyzer.analyze_url(url, url_id)` (tag_analyzer.py lines
50-53) given the outcome of `self._repository.get_content(url)`: on
success it counts tags in the body; an exception propagates. -/
def analyze_url (url : List Char) (url_id : Nat)
    (content : Except (List Char) (List Char)) : Except (List Char) TagResult :=
  match content with
  | .error e => .error e
  | .ok html => .ok { url_id := url_id, url := url, count := count_href_tags html }

/-- `asyncio.gather(*tasks)` with `return_exceptions=False` left at its
default: if every task succeeds, the values in input order; if some task
raises, the gather call raises.  (Which failing task's exception surfaces
first depends on scheduling; the embedding reports the first by index.) -/
def gatherStrict : List (Except (List Char) α) → Except (List Char) (List α)
  | [] => .ok []
  | .error e :: _ => .error e
  | .ok a :: rest => (gatherStrict rest).map (fun l => a :: l)

/-- `HrefTagAnalyzer.analyze_all_urls()` (tag_analyzer.py lines 55-68):
`process_url` there adds no exception handling around `analyze_url`, so
the gather sees each target's raw outcome. -/
def analyze_all_urls (urls : List (List Char))
    (content : Nat → Except (List Char) (List Char)) :
    Except (List Char) (List TagResult) :=
  gatherStrict ((List.range urls.length).map
    (fun i => analyze_url (urls.getD i []) i (content i)))

/-- Responses the `/v1/tags/{url_id}` handler can end in. -/
inductive TagResponse where
  | validation_error
  | bad_request
  | ok (item : ResultItem)
  | raised (e : List Char)
  deriving DecidableEq

/-- Python list indexing `l[i]` for `int` `i`: negative indices address
from the end; `none` is an `IndexError`. -/
def pyIndex (l : List α) (i : Int) : Option α :=
  if 0 ≤ i then l.get? i.toNat
  else if -i ≤ (l.length : Int) then l.get? (l.length - (-i).toNat) else none

/-- `get_tag(url_id)` (main.py lines 108-141).  FastAPI first validates
`Path(..., ge=0, lt=10)` and rejects the request otherwise (a 422, before
the handler body runs).  The body indexes `settings.urls[url_id]`,
catching only `IndexError` (the 400 `ERROR_RESPONSE`); an exception from
`results(url)` has no handler and propagates.  A zero count is rendered
as `None` exactly as in `process_url`. -/
def get_tag (urls : List (List Char))
    (outcome : List Char → Except (List Char) Nat) (url_id : Int) : TagResponse :=
  if url_id < 0 ∨ 10 ≤ url_id then .validation_error
  else
    match pyIndex urls url_id with
    | none => .bad_request
    | some url =>
      match outcome url with
      | .ok r => .ok { id := url_id.toNat, url := url,
                       result := if r != 0 then some r else none, error := none }
      | .error e => .raised e

/-! ## Helper lemmas -/

theorem countWords_nil : countWords [] = 0 := rfl

theorem isEmpty_eq_nil {l : List Char} (h : l.isEmpty = true) : l = [] := by
  cases l with
  | nil => rfl
  | cons c s => simp [List.isEmpty] at h

theorem sum_filter_countWords (l : List (List Char)) :
    (((l.filter (fun tag => !tag.isEmpty)).map countWords).sum : Nat)
      = ((l.map countWords).sum : Nat) := by
  induction l with
  | nil => rfl
  | cons a l ih =>
    by_cases h : a.isEmpty
    · have ha : a = [] := isEmpty_eq_nil h
      subst ha
      simpa [List.filter_cons, countWords_nil] using ih
    · simp [List.filter_cons, h, ih]

theorem pattern_findall_nil : pattern_findall [] = [] := by decide

/-! ## C1 -/

/-- C1: the tag counter returns the sum over all pattern matches of the
number of whitespace-delimited words inside each match's captured group —
not 1 per match, with empty captured groups contributing 0.  The claim's
concrete examples, however, use `href=\'x\'` / `href=\'y\'`, which the
default pattern — requiring the href value to begin with an http/https
scheme — does not match; this counterexample evaluates the first of them
to 0, not 2. -/
theorem C1_counterexample_scheme_required :
    search_tag ("<a href=\'x\'>two words</a>").toList = 0
    ∧ ¬ search_tag ("<a href=\'x\'>two words</a>").toList = 2 := by
  constructor
  · decide
  · decide

/-- C1 (amended): for every input text, `search_tag` (and the identical
`_count_href_tags`) returns the sum over all matches of the default
pattern of the number of whitespace-delimited words inside each match's
captured group — not 1 per match, with empty captured groups contributing
0; the concrete examples hold once the href values carry the scheme the
pattern requires: `count("<a href=\'http://x\'>two words</a>") = 2` and
`count("<a href=\'http://x\'>a b c</a><a href=\'http://y\'>d e</a>") = 5`. -/
theorem C1_word_sum_per_match :
    (∀ data : List Char,
        search_tag data = ((pattern_findall data).map countWords).sum
          ∧ count_href_tags data = ((pattern_findall data).map countWords).sum)
    ∧ search_tag ("<a href=\'http://x\'>two words</a>").toList = 2
    ∧ search_tag ("<a href=\'http://x\'>a b c</a><a href=\'http://y\'>d e</a>").toList = 5 := by
  refine ⟨?_, by decide, by decide⟩
  intro data
  by_cases h : data.isEmpty
  · have hd : data = [] := isEmpty_eq_nil h
    subst hd
    simp [search_tag, count_href_tags, pattern_findall_nil]
  · constructor
    · simp [search_tag, h, sum_filter_countWords]
    · simp [count_href_tags, h, sum_filter_countWords]

/-! ## Retry-loop characterizations -/

/-- Concrete always-transiently-failing underlying fetch, for witnesses. -/
def alwaysFailOutcome (_n : Nat) : Outcome := Outcome.transient ['b', 'o', 'o', 'm']

/-- Concrete jitter stream drawing 0 every time, for witnesses. -/
def zeroJitter (_n : Nat) : ℚ := 0

/-- The message carried by `alwaysFailOutcome`. -/
def boomMsg : List Char := ['b', 'o', 'o', 'm']

theorem fetchAux_allTransient (f : Nat → Outcome) (j : Nat → ℚ) (M : Nat)
    (m : Nat → List Char) (hf : ∀ n, f n = Outcome.transient (m n)) :
    ∀ fuel retries a b, retries + fuel = M + 1 → 1 ≤ fuel →
      fetchAux f j M fuel retries a b =
        { result := .clientError (m (a + (M - retries))),
          attempts := a + (M - retries) + 1,
          sleeps := (List.range (M - retries)).map
            (fun k => b * 2 ^ k + j (a + k) * (1 / 10)) } := by
  intro fuel
  induction fuel with
  | zero => intro retries a b _ h1; omega
  | succ n ih =>
    intro retries a b hsum _
    simp only [fetchAux, hf a]
    by_cases hlast : retries + 1 > M
    · have hrM : retries = M := by omega
      subst hrM
      simp [hlast]
    · have hrec := ih (retries + 1) (a + 1) (b * 2) (by omega) (by omega)
      simp only [if_neg hlast, hrec]
      have h2 : a + 1 + (M - (retries + 1)) = a + (M - retries) := by omega
      rw [h2]
      have hd : M - retries = (M - (retries + 1)) + 1 := by omega
      congr 1
      rw [hd, List.range_succ_eq_map, List.map_cons, List.map_map]
      congr 1
      · simp
      · refine List.map_congr_left (fun k _ => ?_)
        have h1 : a + 1 + k = a + (k + 1) := by omega
        simp only [Function.comp_apply, h1, pow_succ]
        ring

theorem fetch_allTransient (f : Nat → Outcome) (j : Nat → ℚ) (M : Nat)
    (m : Nat → List Char) (hf : ∀ n, f n = Outcome.transient (m n)) :
    fetch f j M =
      { result := .clientError (m M), attempts := M + 1,
        sleeps := (List.range M).map (fun k => 2 ^ k + j k * (1 / 10)) } := by
  have h := fetchAux_allTransient f j M m hf (M + 1) 0 0 1 (by omega) (by omega)
  simpa [fetch] using h

theorem get_contentAux_allTransient (f : Nat → Outcome) (j : Nat → ℚ) (M : Nat)
    (m : Nat → List Char) (hf : ∀ n, f n = Outcome.transient (m n)) :
    ∀ fuel a, a + fuel = M + 1 →
      get_contentAux f j M fuel a =
        { result := .ok [], attempts := M + 1,
          sleeps := (List.range (M - a)).map
            (fun k => (2 : ℚ) ^ (a + k) + j (a + k) * (1 / 10)) } := by
  intro fuel
  induction fuel with
  | zero => intro a hsum; simp only [get_contentAux]; have : a = M + 1 := by omega
            subst this; simp [Nat.sub_eq_zero_of_le (by omega : M ≤ M + 1)]
  | succ n ih =>
    intro a hsum
    simp only [get_contentAux, hf a]
    by_cases hlast : a = M
    · subst hlast
      simp
    · have hne : (a == M) = false := by simp [hlast]
      have hrec := ih (a + 1) (by omega)
      simp only [hne, Bool.false_eq_true, if_false, hrec]
      congr 1
      have hd : M - a = (M - (a + 1)) + 1 := by omega
      rw [hd, List.range_succ_eq_map, List.map_cons, List.map_map]
      congr 1
      refine List.map_congr_left (fun k _ => ?_)
      have h1 : a + 1 + k = a + (k + 1) := by omega
      simp [Function.comp_apply, h1]

theorem get_content_allTransient (f : Nat → Outcome) (j : Nat → ℚ) (M : Nat)
    (m : Nat → List Char) (hf : ∀ n, f n = Outcome.transient (m n)) :
    get_content f j M =
      { result := .ok [], attempts := M + 1,
        sleeps := (List.range M).map (fun k => (2 : ℚ) ^ k + j k * (1 / 10)) } := by
  have h := get_contentAux_allTransient f j M m hf (M + 1) 0 (by omega)
  simpa [get_content] using h

/-- Concrete fatally-failing underlying fetch, for witnesses. -/
def fatalOutcome (_n : Nat) : Outcome := Outcome.fatal ['b', 'o', 'o', 'm']

/-! ## C2 -/

/-- C2: the claim covers `get_content` as well, but on a fetch function
that fails transiently on every attempt, `get_content` with
`max_retries = 3` performs its 4 attempts and then RETURNS the empty
string (`return ""`, web_repository.py lines 77-80) instead of failing
with a wrapped error. -/
theorem C2_counterexample_get_content_returns :
    get_content alwaysFailOutcome zeroJitter 3 =
      { result := .ok [], attempts := 4, sleeps := [1, 2, 4] } := by
  have h := get_content_allTransient alwaysFailOutcome zeroJitter 3
    (fun _ => boomMsg) (fun _ => rfl)
  rw [h]
  norm_num [List.range_succ, zeroJitter]

/-- C2 (amended): on an underlying fetch function that fails with a
transient error on every attempt, both retrying fetchers perform exactly
`maxRetries + 1` underlying attempts; `helpers.fetch` then fails with a
`ClientError` wrapping the last cause, while `get_content` instead
returns the empty string. -/
theorem C2_retry_exhaustion (f : Nat → Outcome) (j : Nat → ℚ) (M : Nat)
    (m : Nat → List Char) (hf : ∀ n, f n = Outcome.transient (m n)) :
    ((fetch f j M).attempts = M + 1
      ∧ (fetch f j M).result = .clientError (m M))
    ∧ ((get_content f j M).attempts = M + 1
      ∧ (get_content f j M).result = .ok []) := by
  rw [fetch_allTransient f j M m hf, get_content_allTransient f j M m hf]
  exact ⟨⟨rfl, rfl⟩, ⟨rfl, rfl⟩⟩

/-- Witness for C2: the amended theorem applied to the concrete
always-failing fetch with `max_retries = 3`. -/
theorem C2_retry_exhaustion_witness :
    (∀ n, alwaysFailOutcome n = Outcome.transient boomMsg)
    ∧ (((fetch alwaysFailOutcome zeroJitter 3).attempts = 3 + 1
        ∧ (fetch alwaysFailOutcome zeroJitter 3).result = .clientError boomMsg)
      ∧ ((get_content alwaysFailOutcome zeroJitter 3).attempts = 3 + 1
        ∧ (get_content alwaysFailOutcome zeroJitter 3).result = .ok [])) :=
  ⟨fun _ => rfl,
   C2_retry_exhaustion alwaysFailOutcome zeroJitter 3 (fun _ => boomMsg) (fun _ => rfl)⟩

/-! ## C6 -/

/-- C6: on an underlying fetch function whose first attempt fails fatally
(an exception outside the transient `ClientError`/`TimeoutError` class),
both retrying fetchers fail immediately after that single attempt, with no
sleeps and no retry-budget consumption: `helpers.fetch` raises a wrapping
`ClientError`, `get_content` lets the exception propagate. -/
theorem C6_fatal_fails_immediately (f : Nat → Outcome) (j : Nat → ℚ) (M : Nat)
    (m : List Char) (hf : f 0 = Outcome.fatal m) :
    fetch f j M = { result := .clientError m, attempts := 1, sleeps := [] }
    ∧ get_content f j M = { result := .raised m, attempts := 1, sleeps := [] } := by
  constructor
  · show fetchAux f j M (M + 1) 0 0 1 = _
    simp [fetchAux, hf]
  · show get_contentAux f j M (M + 1) 0 = _
    simp [get_contentAux, hf]

/-- Witness for C6: a concrete fatally-failing fetch with
`max_retries = 3`. -/
theorem C6_fatal_fails_immediately_witness :
    fatalOutcome 0 = Outcome.fatal boomMsg
    ∧ (fetch fatalOutcome zeroJitter 3
        = { result := .clientError boomMsg, attempts := 1, sleeps := [] }
      ∧ get_content fatalOutcome zeroJitter 3
        = { result := .raised boomMsg, attempts := 1, sleeps := [] }) :=
  ⟨rfl, C6_fatal_fails_immediately fatalOutcome zeroJitter 3 boomMsg rfl⟩

/-! ## C7 -/

/-- C7: after the transient failure of attempt `k` (0-based,
`k < maxRetries`), the delay slept before the next attempt is
`base * 2 ^ k` plus the jitter draw scaled into `[0, 0.1)` — so the
before-jitter delays form the doubling sequence `base, 2*base, 4*base, …`
(with `base = 1`, the initial backoff, in both fetchers). -/
theorem C7_exponential_backoff_jitter (f : Nat → Outcome) (j : Nat → ℚ)
    (M : Nat) (m : Nat → List Char) (k : Nat)
    (hf : ∀ n, f n = Outcome.transient (m n)) (hk : k < M)
    (h0 : 0 ≤ j k) (h1 : j k < 1) :
    (fetch f j M).sleeps.get? k = some ((2 : ℚ) ^ k + j k * (1 / 10))
    ∧ (get_content f j M).sleeps.get? k = some ((2 : ℚ) ^ k + j k * (1 / 10))
    ∧ (2 : ℚ) ^ k ≤ (2 : ℚ) ^ k + j k * (1 / 10)
    ∧ (2 : ℚ) ^ k + j k * (1 / 10) < (2 : ℚ) ^ k + 1 / 10 := by
  rw [fetch_allTransient f j M m hf, get_content_allTransient f j M m hf]
  have hj0 : (0 : ℚ) ≤ j k * (1 / 10) :=
    mul_nonneg h0 (by norm_num)
  have hj1 : j k * (1 / 10) < 1 / 10 := by
    have := mul_lt_mul_of_pos_right h1 (show (0 : ℚ) < 1 / 10 by norm_num)
    simpa using this
  refine ⟨?_, ?_, by linarith, by linarith⟩
  · simp [List.get?_eq_getElem?, List.getElem?_range hk]
  · simp [List.get?_eq_getElem?, List.getElem?_range hk]

/-- Witness for C7: the doubling delay before the second retry
(`k = 1`, delay `2 = base * 2 ^ 1`) of the concrete always-failing fetch. -/
theorem C7_exponential_backoff_jitter_witness :
    ((∀ n, alwaysFailOutcome n = Outcome.transient boomMsg)
      ∧ 1 < 3 ∧ (0 : ℚ) ≤ zeroJitter 1 ∧ zeroJitter 1 < 1)
    ∧ ((fetch alwaysFailOutcome zeroJitter 3).sleeps.get? 1
        = some ((2 : ℚ) ^ 1 + zeroJitter 1 * (1 / 10))
      ∧ (get_content alwaysFailOutcome zeroJitter 3).sleeps.get? 1
        = some ((2 : ℚ) ^ 1 + zeroJitter 1 * (1 / 10))
      ∧ (2 : ℚ) ^ 1 ≤ (2 : ℚ) ^ 1 + zeroJitter 1 * (1 / 10)
      ∧ (2 : ℚ) ^ 1 + zeroJitter 1 * (1 / 10) < (2 : ℚ) ^ 1 + 1 / 10) :=
  ⟨⟨fun _ => rfl, by norm_num, le_refl _, by norm_num [zeroJitter]⟩,
   C7_exponential_backoff_jitter alwaysFailOutcome zeroJitter 3 (fun _ => boomMsg) 1
     (fun _ => rfl) (by norm_num) (le_refl _) (by norm_num [zeroJitter])⟩

/-! ## Batch machinery -/

theorem get_tags_get? (urls : List (List Char)) (outcome : Nat → Except (List Char) Nat)
    (i : Nat) :
    (get_tags urls outcome).get? i =
      if i < urls.length then some (process_url i (urls.getD i []) (outcome i))
      else none := by
  by_cases h : i < urls.length
  · simp [get_tags, List.get?_eq_getElem?, List.getElem?_range h, h]
  · rw [if_neg h]
    simp only [get_tags, List.get?_eq_getElem?]
    apply List.getElem?_eq_none
    simpa using not_lt.1 h

theorem get_tags_length (urls : List (List Char)) (outcome : Nat → Except (List Char) Nat) :
    (get_tags urls outcome).length = urls.length := by
  simp [get_tags]

theorem process_url_id_url (i : Nat) (u : List Char) (o : Except (List Char) Nat) :
    (process_url i u o).id = i ∧ (process_url i u o).url = u := by
  cases o <;> exact ⟨rfl, rfl⟩

theorem gatherAssemble_foldl_get? (task : Nat → α) :
    ∀ (order : List Nat) (acc : List (Option α)) (jj : Nat),
      (order.foldl (fun acc i => acc.set i (some (task i))) acc).get? jj
        = if jj ∈ order ∧ jj < acc.length then some (some (task jj)) else acc.get? jj := by
  intro order
  induction order with
  | nil => intro acc jj; simp
  | cons i order ih =>
    intro acc jj
    simp only [List.foldl_cons, ih, List.length_set]
    by_cases h1 : jj ∈ order ∧ jj < acc.length
    · simp [h1, List.mem_cons.2 (Or.inr h1.1)]
    · rw [if_neg h1]
      by_cases hlen : jj < acc.length
      · by_cases hji : jj = i
        · subst hji
          rw [List.get?_set_eq_of_lt _ hlen, if_pos ⟨List.mem_cons_self jj order, hlen⟩]
        · rw [List.get?_set_ne _ _ (fun h => hji h.symm)]
          have : ¬ (jj ∈ i :: order ∧ jj < acc.length) := by
            intro hc
            rcases List.mem_cons.1 hc.1 with h0 | hmem
            · exact hji h0
            · exact h1 ⟨hmem, hc.2⟩
          rw [if_neg this]
      · have hnone : acc.get? jj = none := List.get?_eq_none.2 (not_lt.1 hlen)
        have hnone2 : (acc.set i (some (task i))).get? jj = none :=
          List.get?_eq_none.2 (by simpa using not_lt.1 hlen)
        rw [hnone2, hnone, if_neg (fun hc => hlen hc.2)]

theorem gatherAssemble_perm (n : Nat) (order : List Nat) (task : Nat → α)
    (hp : order.Perm (List.range n)) :
    gatherAssemble n order task = (List.range n).map (fun i => some (task i)) := by
  apply List.ext_get?_iff.2
  intro jj
  rw [gatherAssemble, gatherAssemble_foldl_get? task order _ jj]
  by_cases h : jj < n
  · have hmem : jj ∈ order := hp.mem_iff.2 (List.mem_range.2 h)
    simp [hmem, h, List.get?_eq_getElem?, List.getElem?_range h]
  · have hmem : jj ∉ order := fun hc => h (List.mem_range.1 (hp.mem_iff.1 hc))
    have h1 : (List.replicate n (none : Option α))[jj]? = none :=
      List.getElem?_eq_none (by simpa using not_lt.1 h)
    have h2 : (List.range n)[jj]? = none :=
      List.getElem?_eq_none (by simpa using not_lt.1 h)
    simp [hmem, List.get?_eq_getElem?, h1, h2]

theorem gatherStrict_error_of_mem {α : Type} :
    ∀ (l : List (Except (List Char) α)) (e : List Char),
      Except.error e ∈ l → ∃ e2, gatherStrict l = Except.error e2 := by
  intro l
  induction l with
  | nil => intro e h; simp at h
  | cons x rest ih =>
    intro e h
    match x with
    | .error e0 => exact ⟨e0, rfl⟩
    | .ok a =>
      rcases List.mem_cons.1 h with h0 | hmem
      · exact absurd h0 (by simp)
      · obtain ⟨e2, he2⟩ := ih e hmem
        exact ⟨e2, by simp [gatherStrict, he2, Except.map]⟩

theorem gatherStrict_ok_get? {α : Type} :
    ∀ (l : List (Except (List Char) α)) (v : List α),
      gatherStrict l = Except.ok v → ∀ i, l.get? i = (v.get? i).map Except.ok := by
  intro l
  induction l with
  | nil =>
    intro v hv i
    have : v = [] := by simpa [gatherStrict] using hv.symm
    subst this
    simp
  | cons x rest ih =>
    intro v hv i
    match x with
    | .error e0 => simp [gatherStrict] at hv
    | .ok a =>
      cases hrest : gatherStrict rest with
      | error e => rw [gatherStrict, hrest] at hv; simp [Except.map] at hv
      | ok w =>
        rw [gatherStrict, hrest] at hv
        simp only [Except.map, Except.ok.injEq] at hv
        subst hv
        cases i with
        | zero => simp
        | succ n => simpa using ih w hrest n

theorem gatherStrict_ok_length {α : Type} :
    ∀ (l : List (Except (List Char) α)) (v : List α),
      gatherStrict l = Except.ok v → v.length = l.length := by
  intro l
  induction l with
  | nil =>
    intro v hv
    have : v = [] := by simpa [gatherStrict] using hv.symm
    subst this; rfl
  | cons x rest ih =>
    intro v hv
    match x with
    | .error e0 => simp [gatherStrict] at hv
    | .ok a =>
      cases hrest : gatherStrict rest with
      | error e => rw [gatherStrict, hrest] at hv; simp [Except.map] at hv
      | ok w =>
        rw [gatherStrict, hrest] at hv
        simp only [Except.map, Except.ok.injEq] at hv
        subst hv
        simpa using ih w hrest

/-- Concrete two-target list for witnesses. -/
def uList : List (List Char) := [['u'], ['v']]

/-- Concrete per-target content outcomes where target 1 fails. -/
def failSecondContent : Nat → Except (List Char) (List Char) :=
  fun i => if i = 0 then Except.ok [] else Except.error boomMsg

/-- Concrete per-target content outcomes where every target succeeds. -/
def okContent : Nat → Except (List Char) (List Char) := fun _ => Except.ok []

/-- Concrete per-target count outcomes, all successes. -/
def oA : Nat → Except (List Char) Nat :=
  fun i => if i = 0 then Except.ok 1 else Except.ok 2

/-- Concrete per-target count outcomes agreeing with `oA` at target 0 but
failing at target 1. -/
def oB : Nat → Except (List Char) Nat :=
  fun i => if i = 0 then Except.ok 1 else Except.error boomMsg

/-! ## C3 -/

/-- C3: the claim also covers `analyze_all_urls`, whose inner
`process_url` adds no exception handling, so with two targets whose
second fails, the whole batch call fails instead of capturing the error
in that target's result record. -/
theorem C3_counterexample_batch_aborts :
    analyze_all_urls uList failSecondContent = Except.error boomMsg := by
  rfl

/-- C3 (amended): in the `/v1/tags` handler, a target's fetch/count
failure is captured into that target's own record (absent count, present
error field), each target's record depends only on its own outcome, and
the batch always returns one record per target; `analyze_all_urls`,
however, propagates an individual target's exception, failing the whole
batch call. -/
theorem C3_per_target_error_capture :
    (∀ (urls : List (List Char)) (o1 o2 : Nat → Except (List Char) Nat) (i : Nat),
        o1 i = o2 i → (get_tags urls o1).get? i = (get_tags urls o2).get? i)
    ∧ (∀ (urls : List (List Char)) (o : Nat → Except (List Char) Nat)
        (i : Nat) (e : List Char), i < urls.length → o i = Except.error e →
          (get_tags urls o).get? i
            = some { id := i, url := urls.getD i [], result := none, error := some e })
    ∧ (∀ (urls : List (List Char)) (o : Nat → Except (List Char) Nat),
        (get_tags urls o).length = urls.length)
    ∧ (∀ (urls : List (List Char)) (content : Nat → Except (List Char) (List Char))
        (i : Nat) (e : List Char), i < urls.length → content i = Except.error e →
          ∃ e2, analyze_all_urls urls content = Except.error e2) := by
  refine ⟨?_, ?_, get_tags_length, ?_⟩
  · intro urls o1 o2 i h
    rw [get_tags_get?, get_tags_get?, h]
  · intro urls o i e hi he
    rw [get_tags_get?, if_pos hi, he]
    rfl
  · intro urls content i e hi he
    apply gatherStrict_error_of_mem _ e
    refine List.mem_map.2 ⟨i, List.mem_range.2 hi, ?_⟩
    rw [he]
    rfl

/-- Witness for C3: the amended theorem applied to the concrete
two-target batch whose second target fails. -/
theorem C3_per_target_error_capture_witness :
    (oA 0 = oB 0 ∧ (get_tags uList oA).get? 0 = (get_tags uList oB).get? 0)
    ∧ (1 < uList.length ∧ oB 1 = Except.error boomMsg
        ∧ (get_tags uList oB).get? 1
            = some { id := 1, url := ['v'], result := none, error := some boomMsg })
    ∧ (get_tags uList oB).length = uList.length
    ∧ (failSecondContent 1 = Except.error boomMsg
        ∧ ∃ e2, analyze_all_urls uList failSecondContent = Except.error e2) :=
  ⟨⟨rfl, C3_per_target_error_capture.1 uList oA oB 0 rfl⟩,
   ⟨by decide, rfl,
    C3_per_target_error_capture.2.1 uList oB 1 boomMsg (by decide) rfl⟩,
   C3_per_target_error_capture.2.2.1 uList oB,
   ⟨rfl, C3_per_target_error_capture.2.2.2 uList failSecondContent 1 boomMsg (by decide) rfl⟩⟩

/-! ## C4 -/

/-- C4: the batch produces exactly one result per input target, ordered by
input index — entry `i` carries id `i` and the `i`-th configured address —
regardless of the order in which the concurrent per-target computations
complete (`gatherAssemble` writes completions slot-by-slot in an arbitrary
completion order); the same input-order guarantee holds for
`analyze_all_urls` whenever it returns a batch. -/
theorem C4_results_in_input_order (urls : List (List Char))
    (outcome : Nat → Except (List Char) Nat)
    (content : Nat → Except (List Char) (List Char)) (order : List Nat)
    (hp : order.Perm (List.range urls.length)) :
    gatherAssemble urls.length order
        (fun i => process_url i (urls.getD i []) (outcome i))
      = (get_tags urls outcome).map some
    ∧ (get_tags urls outcome).length = urls.length
    ∧ (∀ i, i < urls.length →
        (get_tags urls outcome).get? i
          = some (process_url i (urls.getD i []) (outcome i)))
    ∧ (∀ i r, (get_tags urls outcome).get? i = some r →
        r.id = i ∧ r.url = urls.getD i [])
    ∧ (∀ l, analyze_all_urls urls content = Except.ok l →
        l.length = urls.length
        ∧ ∀ i r, l.get? i = some r → r.url_id = i ∧ r.url = urls.getD i []) := by
  refine ⟨?_, get_tags_length urls outcome, ?_, ?_, ?_⟩
  · rw [gatherAssemble_perm urls.length order _ hp, get_tags, List.map_map]
    rfl
  · intro i hi
    rw [get_tags_get?, if_pos hi]
  · intro i r hr
    rw [get_tags_get?] at hr
    by_cases hi : i < urls.length
    · rw [if_pos hi] at hr
      cases hr
      exact process_url_id_url i _ (outcome i)
    · rw [if_neg hi] at hr
      cases hr
  · intro l hl
    have hlen := gatherStrict_ok_length _ l hl
    have hget := gatherStrict_ok_get? _ l hl
    constructor
    · rw [hlen]; simp
    · intro i r hr
      have h2 := hget i
      rw [hr] at h2
      simp only [Option.map_some'] at h2
      by_cases hi : i < urls.length
      · rw [List.get?_eq_getElem?, List.getElem?_map, List.getElem?_range hi] at h2
        simp only [Option.map_some', Option.some.injEq] at h2
        cases hc : content i with
        | error e =>
          rw [hc] at h2
          exact absurd h2 (by simp [analyze_url])
        | ok html =>
          rw [hc] at h2
          simp only [analyze_url, Except.ok.injEq] at h2
          rw [← h2]
          exact ⟨rfl, rfl⟩
      · have hnone : ((List.range urls.length).map
            (fun i => analyze_url (urls.getD i []) i (content i))).get? i = none := by
          rw [List.get?_eq_getElem?]
          apply List.getElem?_eq_none
          simpa using not_lt.1 hi
        rw [hnone] at h2
        cases h2

/-- Witness for C4: the concrete two-target batch assembled in the
reversed completion order `[1, 0]`. -/
theorem C4_results_in_input_order_witness :
    [1, 0].Perm (List.range uList.length)
    ∧ (gatherAssemble uList.length [1, 0]
          (fun i => process_url i (uList.getD i []) (oB i))
        = (get_tags uList oB).map some
      ∧ (get_tags uList oB).length = uList.length
      ∧ (∀ i, i < uList.length →
          (get_tags uList oB).get? i
            = some (process_url i (uList.getD i []) (oB i)))
      ∧ (∀ i r, (get_tags uList oB).get? i = some r →
          r.id = i ∧ r.url = uList.getD i [])
      ∧ (∀ l, analyze_all_urls uList okContent = Except.ok l →
          l.length = uList.length
          ∧ ∀ i r, l.get? i = some r → r.url_id = i ∧ r.url = uList.getD i [])) :=
  ⟨by decide, C4_results_in_input_order uList oB okContent [1, 0] (by decide)⟩

/-- Concrete per-url outcome returning the count 3, for witnesses. -/
def outcomeOk : List Char → Except (List Char) Nat := fun _ => Except.ok 3

/-- Concrete per-url outcome returning the count 0, for witnesses. -/
def zeroOutcome : List Char → Except (List Char) Nat := fun _ => Except.ok 0

/-- The record the single-target handler builds for target 0 of `uList`
when the computed count is 0. -/
def zeroItem : ResultItem := { id := 0, url := ['u'], result := none, error := none }

/-! ## C5 -/

/-- C5: for every id outside `[0, len(targets))` the single-target handler
signals an explicit out-of-range condition — the FastAPI `ge=0, lt=10`
validation rejection or the 400 response from the caught `IndexError` —
and never crashes (no exception escapes) nor returns a result for a
mismatched target. -/
theorem C5_out_of_range_signalled (urls : List (List Char))
    (outcome : List Char → Except (List Char) Nat) (url_id : Int)
    (h : url_id < 0 ∨ (urls.length : Int) ≤ url_id) :
    (get_tag urls outcome url_id = TagResponse.validation_error
      ∨ get_tag urls outcome url_id = TagResponse.bad_request)
    ∧ (∀ item, get_tag urls outcome url_id ≠ TagResponse.ok item)
    ∧ (∀ e, get_tag urls outcome url_id ≠ TagResponse.raised e) := by
  rw [get_tag]
  by_cases hv : url_id < 0 ∨ 10 ≤ url_id
  · rw [if_pos hv]
    exact ⟨Or.inl rfl, fun item hc => TagResponse.noConfusion hc,
      fun e hc => TagResponse.noConfusion hc⟩
  · rw [if_neg hv]
    push_neg at hv
    have h0 : (0 : Int) ≤ url_id := hv.1
    have hlen : urls.length ≤ url_id.toNat := by omega
    have hpy : pyIndex urls url_id = none := by
      rw [pyIndex, if_pos h0]
      exact List.get?_eq_none.2 hlen
    rw [hpy]
    exact ⟨Or.inr rfl, fun item hc => TagResponse.noConfusion hc,
      fun e hc => TagResponse.noConfusion hc⟩

/-- Witness for C5: id 5 against the two-target list — in the handler's
validated `[0, 10)` range but beyond the configured list, so the
`IndexError` path signals the 400 response. -/
theorem C5_out_of_range_signalled_witness :
    ((5 : Int) < 0 ∨ (uList.length : Int) ≤ 5)
    ∧ ((get_tag uList outcomeOk 5 = TagResponse.validation_error
        ∨ get_tag uList outcomeOk 5 = TagResponse.bad_request)
      ∧ (∀ item, get_tag uList outcomeOk 5 ≠ TagResponse.ok item)
      ∧ (∀ e, get_tag uList outcomeOk 5 ≠ TagResponse.raised e)) :=
  ⟨Or.inr (by decide),
   C5_out_of_range_signalled uList outcomeOk 5 (Or.inr (by decide))⟩

/-! ## C8 -/

/-- C8: `cleanup` is a total function of the session state (so it never
raises); calling it on the never-created state is a no-op, calling it
again after it already ran is a no-op, calling it on an open session
closes it and clears the global, and the next `get_session` after any
`cleanup` hands out a fresh, open session. -/
theorem C8_cleanup_idempotent :
    cleanup { session := none } = ({ session := none }, false)
    ∧ (∀ st : HelperState, cleanup (cleanup st).1 = ((cleanup st).1, false))
    ∧ (∀ sid : Nat, cleanup { session := some { sid := sid, closed := false } }
        = ({ session := none }, true))
    ∧ (∀ (st : HelperState) (fresh : Nat),
        (get_session (cleanup st).1 fresh).1.closed = false) := by
  refine ⟨rfl, ?_, fun _ => rfl, ?_⟩
  · intro st
    obtain ⟨s⟩ := st
    cases s with
    | none => rfl
    | some sess =>
      obtain ⟨sid, closed⟩ := sess
      cases closed with
      | false => rfl
      | true => rfl
  · intro st fresh
    obtain ⟨s⟩ := st
    cases s with
    | none => rfl
    | some sess =>
      obtain ⟨sid, closed⟩ := sess
      cases closed with
      | false => rfl
      | true => rfl

/-! ## C9 -/

/-- C9: both handlers render a computed count of 0 with an absent `result`
field — the same `result` representation a failed fetch gets — because of
the `result if result else None` truthiness test; the integer 0 is never
returned as a count. -/
theorem C9_zero_count_rendered_null :
    (∀ (i : Nat) (u : List Char),
        process_url i u (Except.ok 0)
          = { id := i, url := u, result := none, error := none })
    ∧ (∀ (i : Nat) (u e : List Char),
        (process_url i u (Except.error e)).result = none)
    ∧ (∀ (i : Nat) (u : List Char) (o : Except (List Char) Nat),
        (process_url i u o).result ≠ some 0)
    ∧ (∀ (urls : List (List Char)) (outcome : List Char → Except (List Char) Nat)
        (url_id : Int) (item : ResultItem),
        get_tag urls outcome url_id = TagResponse.ok item →
          item.result ≠ some 0
          ∧ (outcome item.url = Except.ok 0 → item.result = none)) := by
  refine ⟨fun i u => rfl, fun i u e => rfl, ?_, ?_⟩
  · intro i u o
    cases o with
    | error e => simp [process_url]
    | ok r =>
      by_cases hr : r = 0
      · subst hr; simp [process_url]
      · simp [process_url, hr]
  · intro urls outcome url_id item h
    rw [get_tag] at h
    by_cases hv : url_id < 0 ∨ 10 ≤ url_id
    · rw [if_pos hv] at h; cases h
    · rw [if_neg hv] at h
      cases hpy : pyIndex urls url_id with
      | none => rw [hpy] at h; cases h
      | some url =>
        rw [hpy] at h
        dsimp only at h
        cases ho : outcome url with
        | error e => rw [ho] at h; dsimp only at h; cases h
        | ok r =>
          rw [ho] at h
          dsimp only at h
          cases h
          constructor
          · by_cases hr : r = 0
            · subst hr; simp
            · simp [hr]
          · intro h0
            rw [ho] at h0
            injection h0 with hr
            rw [← hr]
            simp

/-- Witness for C9: target 0 of the two-target list with a computed count
of 0 is rendered with `result: None` and no error field. -/
theorem C9_zero_count_rendered_null_witness :
    process_url 0 ['u'] (Except.ok 0)
      = { id := 0, url := ['u'], result := none, error := none }
    ∧ (process_url 0 ['u'] (Except.error boomMsg)).result = none
    ∧ (process_url 0 ['u'] (Except.ok 0)).result ≠ some 0
    ∧ (get_tag uList zeroOutcome 0 = TagResponse.ok zeroItem
        ∧ (zeroItem.result ≠ some 0
          ∧ (zeroOutcome zeroItem.url = Except.ok 0 → zeroItem.result = none))) :=
  ⟨C9_zero_count_rendered_null.1 0 ['u'],
   C9_zero_count_rendered_null.2.1 0 ['u'] boomMsg,
   C9_zero_count_rendered_null.2.2.1 0 ['u'] (Except.ok 0),
   ⟨rfl, C9_zero_count_rendered_null.2.2.2 uList zeroOutcome 0 zeroItem rfl⟩⟩

/-! ## C10 -/

/-- C10: the fetch-and-count pipeline `results(url)` applies the
module-level precompiled default anchor pattern via `search_tag(html)` and
never reads the configured `pattern` setting: two configurations differing
only in the `pattern` field produce the same count on every input. -/
theorem C10_results_ignores_pattern_setting :
    (∀ (cfg : Settings) (p html : List Char),
        results { cfg with pattern := p } html = results cfg html)
    ∧ (∀ (cfg : Settings) (html : List Char), results cfg html = search_tag html) :=
  ⟨fun _ _ _ => rfl, fun _ _ => rfl⟩

end Spec2Proof
